import Mathlib

/-
  Verification development for the task / spare-part extraction core of
  extract_tasks_and_spares.py.

  The Python source is shallowly embedded: every definition below mirrors a
  function (or an inlined code block) of the source file; strings are Lean
  `String`s, Python `str.split()` / `str.strip()` / the few regexes used by
  the source are implemented directly on the character lists.  The embedding
  is ASCII-faithful (the source only ever matches ASCII classes: digits,
  `[A-Za-z]`, `[:;/.\-]`, whitespace, `*`, parentheses, backslash).
-/

set_option maxRecDepth 10000

namespace PdfExtract

/-! ## Python string primitives -/

/-- Python whitespace for `str.split()` / `str.strip()` (ASCII part). -/
def pyWs (c : Char) : Bool :=
  c == ' ' || c == '\t' || c == '\n' || c == '\r' || c == '\x0b' || c == '\x0c'

/-- Python `str.strip()`. -/
def pyStrip (s : String) : String :=
  String.mk (((s.toList.dropWhile pyWs).reverse.dropWhile pyWs).reverse)

/-- Helper for `pySplit`: accumulate the current token (reversed) while
splitting on whitespace runs. -/
def splitWsAux : List Char → List Char → List String
  | [], acc => if acc.isEmpty then [] else [String.mk acc.reverse]
  | c :: cs, acc =>
    if pyWs c then
      if acc.isEmpty then splitWsAux cs []
      else String.mk acc.reverse :: splitWsAux cs []
    else splitWsAux cs (c :: acc)

/-- Python `str.split()` with no arguments: split on whitespace runs,
discarding empty pieces. -/
def pySplit (s : String) : List String := splitWsAux s.toList []

/-- ASCII lower-casing of one character (Python `str.lower()`, ASCII part). -/
def pyCharLower (c : Char) : Char :=
  if 'A' ≤ c ∧ c ≤ 'Z' then Char.ofNat (c.toNat + 32) else c

/-- Python `str.lower()`. -/
def pyLower (s : String) : String := String.mk (s.toList.map pyCharLower)

/-- Python `" ".join(...)`. -/
def joinSp : List String → String
  | [] => ""
  | [t] => t
  | t :: ts => t ++ " " ++ joinSp ts

/-- Python `tok.isupper()` (ASCII): at least one letter and no lowercase
letter. -/
def pyIsUpperStr (s : String) : Bool :=
  s.toList.any Char.isAlpha && !(s.toList.any Char.isLower)

/-- Python `tok.isalpha()` (ASCII): nonempty and all letters. -/
def pyIsAlphaStr (s : String) : Bool :=
  !s.toList.isEmpty && s.toList.all Char.isAlpha

/-- Python `re.match(r"^\d+$", s)`: nonempty and all digits. -/
def allDigits (s : String) : Bool :=
  !s.toList.isEmpty && s.toList.all Char.isDigit

/-- Is `pat` an infix of `l` (Python `pat in s` on strings). -/
def listInfixOf (pat : List Char) : List Char → Bool
  | [] => pat.isEmpty
  | c :: rest => List.isPrefixOf pat (c :: rest) || listInfixOf pat rest

/-- Python `pat in s` for strings. -/
def containsSub (s pat : String) : Bool := listInfixOf pat.toList s.toList

/-- Python `c in s` for a single character. -/
def containsChar (s : String) (c : Char) : Bool := s.toList.any (fun d => d == c)

/-- Python `s.startswith(pre)`. -/
def startsWithStr (s pre : String) : Bool := List.isPrefixOf pre.toList s.toList

/-! ## Line classifiers (source: is_header_line, is_metadata_line,
looks_like_component_line, strip_status_prefix, looks_like_task_row) -/

/-- Source `is_header_line`: the lower-cased, space-normalized text must
contain the four phrases. -/
def is_header_line (line : String) : Bool :=
  let lower := joinSp (pySplit (pyLower line))
  containsSub lower "task code" && containsSub lower "trade" &&
    containsSub lower "task action" && containsSub lower "task description"

/-- Source `is_metadata_line`. -/
def is_metadata_line (line : String) : Bool :=
  let lower := pyLower line
  startsWithStr lower "asset:" || startsWithStr lower "database:" ||
    startsWithStr lower "printed by" || startsWithStr lower "page "

/-- Source `looks_like_component_line`. -/
def looks_like_component_line (line : String) : Bool :=
  let stripped := pyStrip line
  if stripped = "" then false
  else containsChar line '\\' || containsChar line '[' || startsWithStr stripped "("

/-- Source `strip_status_prefix` (renamed: returns the substring of the line
starting at the first `*` or digit, stripped; the whole stripped line if
there is none). -/
def strip_status_marker (line : String) : String :=
  let suffix := line.toList.dropWhile (fun c => !(c == '*' || c.isDigit))
  if suffix.isEmpty then pyStrip line else pyStrip (String.mk suffix)

/-- Source regex `\*?\d{6,8}` fullmatch (also `re.match(r"\*?\d{6,8}$", tok)`
on whitespace-free tokens): optional leading star then 6 to 8 digits. -/
def matchTaskCode (tok : String) : Bool :=
  let l := tok.toList
  let l2 := match l with
    | '*' :: t => t
    | _ => l
  decide (6 ≤ l2.length ∧ l2.length ≤ 8) && l2.all Char.isDigit

/-- Source `normalize_task_code`: `re.sub(r"^\*", "", code)` removes one
leading star. -/
def normalize_task_code (code : String) : String :=
  match code.toList with
  | '*' :: t => String.mk t
  | _ => code

/-- Source `looks_like_task_row`. -/
def looks_like_task_row (line : String) : Bool :=
  if is_metadata_line line then false
  else if containsChar line '\\' && containsChar line '(' && containsChar line ')' then false
  else
    let tokens := pySplit (strip_status_marker line)
    if tokens.length < 3 then false
    else
      let code_token := tokens.headD ""
      if containsChar code_token '/' then false
      else
        let trade_token := (tokens.drop 1).headD ""
        matchTaskCode code_token && (pyIsAlphaStr trade_token && pyIsUpperStr trade_token)

/-! ## Grey (context) rows (source: parse_grey_row) -/

/-- Source `re.findall(r"\((\d+)\)", line)`: all parenthesized digit runs, in
order.  Scanning every position is equivalent to the regex engine's
jump-past-the-match scan because a matched span `(digits)` contains no
further `(`. -/
def parenCodes : List Char → List String
  | [] => []
  | c :: rest =>
    if c = '(' then
      let ds := rest.takeWhile Char.isDigit
      if !ds.isEmpty && (rest.drop ds.length).head? = some ')' then
        String.mk ds :: parenCodes rest
      else parenCodes rest
    else parenCodes rest

/-- Python `line.split("\\", 1)` when a backslash is present. -/
def splitBackslash1 (line : String) : String × String :=
  let l := line.toList
  let before := l.takeWhile (fun c => c ≠ '\\')
  match l.dropWhile (fun c => c ≠ '\\') with
  | _ :: t => (String.mk before, String.mk t)
  | [] => (String.mk before, "")

/-- Source `parse_grey_row`: (location1, location2, setTypeCode,
componentPath). -/
def parse_grey_row (line : String) : String × String × String × String :=
  let component_path := pyStrip line
  let p := if containsChar line '\\' then splitBackslash1 line else (line, "")
  let location1 := pyStrip p.1
  let location2 := pyStrip p.2
  let codes := parenCodes line.toList
  let set_type_code := (codes.getLast?).getD ""
  (location1, location2, set_type_code, component_path)

/-! ## Task row parsing (source: _split_interval,
_split_doc_ref_and_description, parse_task_row) -/

/-- The interval unit set of `_split_interval`. -/
def isIntervalUnit (w : String) : Bool :=
  w == "hours" || w == "hour" || w == "week" || w == "weeks" ||
    w == "month" || w == "months" || w == "day" || w == "days"

/-- Source `_split_interval`: split tokens into (body, interval). -/
def split_interval (tokens : List String) : List String × String :=
  if tokens.isEmpty then ([], "")
  else
    let n := tokens.length
    let lastTok := (tokens.getLast?).getD ""
    let lastL := pyLower lastTok
    let secondTok := ((tokens.drop (n - 2)).head?).getD ""
    if 2 ≤ n ∧ (tokens.drop (n - 2)).map pyLower = ["no", "interval"] then
      (tokens.take (n - 2), "No Interval")
    else if isIntervalUnit lastL = true ∧ 2 ≤ n ∧ allDigits secondTok = true then
      (tokens.take (n - 2), secondTok ++ " " ++ lastTok)
    else if lastL = "recap" then
      (tokens.take (n - 1), "Recap")
    else if 2 ≤ n then
      (tokens.take (n - 2), joinSp (tokens.drop (n - 2)))
    else ([], lastTok)

/-- The per-token test of the doc-ref lookback in
`_split_doc_ref_and_description`: contains a digit, contains one of
`:;/.-`, or is a short (≤ 4) all-uppercase word. -/
def docCond (tok : String) : Bool :=
  tok.toList.any Char.isDigit ||
    tok.toList.any (fun c => c == ':' || c == ';' || c == '/' || c == '.' || c == '-') ||
    (pyIsUpperStr tok && decide (tok.length ≤ 4))

/-- Index of the first element satisfying `p` (the `for ... break` loop of
the doc-ref lookback). -/
def findFirstIdx (p : String → Bool) : List String → Option Nat
  | [] => none
  | t :: ts => if p t then some 0 else (findFirstIdx p ts).map (fun i => i + 1)

/-- Source `_split_doc_ref_and_description`: (description, doc_ref). -/
def split_doc_ref_and_description (tokens : List String) : String × String :=
  if tokens.isEmpty then ("", "")
  else
    let n := tokens.length
    if 2 ≤ n ∧ (tokens.drop (n - 2)).map pyLower = ["no", "reference"] then
      (pyStrip (joinSp (tokens.take (n - 2))), "No reference")
    else
      let lookback := if 5 < n then tokens.drop (n - 5) else tokens
      let lookbackStart := n - lookback.length
      let docStart :=
        match findFirstIdx docCond lookback with
        | some i => lookbackStart + i
        | none => n - 1
      (pyStrip (joinSp (tokens.take docStart)), pyStrip (joinSp (tokens.drop docStart)))

/-- Result of `parse_task_row`. -/
structure ParsedTask where
  taskCode : String
  trade : String
  taskAction : String
  taskDescription : String
  docRef : String
  interval : String
deriving DecidableEq, Repr

/-- Source `parse_task_row`. -/
def parse_task_row (line : String) : ParsedTask :=
  let tokens := pySplit (strip_status_marker line)
  if tokens.length < 3 then ⟨"", "", "", "", "", ""⟩
  else
    let task_code := tokens.headD ""
    let trade := (tokens.drop 1).headD ""
    let task_action := (tokens.drop 2).headD ""
    let remaining := tokens.drop 3
    let bi := split_interval remaining
    let dd := split_doc_ref_and_description bi.1
    ⟨task_code, trade, task_action, dd.1, dd.2, bi.2⟩

/-! ## Task extraction pass (source: extract_tasks_and_assets_from_lines)

In the source, `rows_by_code[code]` always aliases the unique element of
`rows` whose `TaskCode` equals `code` (entries are inserted into both
together and the merge branch mutates the shared dict in place), so the
state is modelled by the ordered `rows` list alone; dict lookups become
first-match searches on `rows`. -/

/-- One output task record.  Fields of the row dict that are always the
empty string in the source (TypeOfWork, Duration, ..., Section, AssetType)
are omitted: the merge loop is a no-op on them. -/
structure TaskRow where
  taskCode : String
  trade : String
  taskAction : String
  taskDescription : String
  docRef : String
  interval : String
  location1 : String
  location2 : String
  setTypeCode : String
  componentPath : String
  assetTypeCode : String
  active : String
deriving DecidableEq, Repr

/-- The merge rule for a non-description field: fill only if currently
empty and the new value is non-empty. -/
def fillIfEmpty (oldv newv : String) : String :=
  if oldv = "" ∧ newv ≠ "" then newv else oldv

/-- The in-place merge of a duplicate task row (the `for key, value in
row.items()` loop of the source): description replaced only when strictly
longer, every other field filled only if empty. -/
def mergeRow (existing newRow : TaskRow) : TaskRow :=
  { taskCode := fillIfEmpty existing.taskCode newRow.taskCode
    trade := fillIfEmpty existing.trade newRow.trade
    taskAction := fillIfEmpty existing.taskAction newRow.taskAction
    taskDescription :=
      if existing.taskDescription.length < newRow.taskDescription.length then
        newRow.taskDescription
      else existing.taskDescription
    docRef := fillIfEmpty existing.docRef newRow.docRef
    interval := fillIfEmpty existing.interval newRow.interval
    location1 := fillIfEmpty existing.location1 newRow.location1
    location2 := fillIfEmpty existing.location2 newRow.location2
    setTypeCode := fillIfEmpty existing.setTypeCode newRow.setTypeCode
    componentPath := fillIfEmpty existing.componentPath newRow.componentPath
    assetTypeCode := fillIfEmpty existing.assetTypeCode newRow.assetTypeCode
    active := fillIfEmpty existing.active newRow.active }

/-- Merge `newRow` into the first row whose code is `code` (the
`rows_by_code[norm_code]` in-place update). -/
def mergeFirst (rows : List TaskRow) (code : String) (newRow : TaskRow) : List TaskRow :=
  match rows with
  | [] => []
  | r :: rest =>
    if r.taskCode = code then mergeRow r newRow :: rest
    else r :: mergeFirst rest code newRow

/-- Append a continuation line to the description of the first row whose
code is `code` (the `target["TaskDescription"] = f"{...} {line.strip()}"
.strip()` update; no change when the code is absent). -/
def appendDescFirst (rows : List TaskRow) (code line : String) : List TaskRow :=
  match rows with
  | [] => []
  | r :: rest =>
    if r.taskCode = code then
      { r with taskDescription := pyStrip (r.taskDescription ++ " " ++ pyStrip line) } :: rest
    else r :: appendDescFirst rest code line

/-- The mutable scan state of the task pass. -/
structure TaskState where
  rows : List TaskRow
  loc1 : String
  loc2 : String
  setType : String
  compPath : String
  lastTaskCode : String
  assetType : String
  assetCode : String
deriving DecidableEq, Repr

/-- Python `line.split(":", 1)[1]` (text after the first colon). -/
def afterFirstColon (line : String) : String :=
  String.mk ((line.toList.dropWhile (fun c => c ≠ ':')).drop 1)

/-- The `Asset:` branch of the task loop. -/
def assetUpdate (s : TaskState) (line : String) : TaskState :=
  match pySplit (afterFirstColon line) with
  | [] => s
  | code :: rest => { s with assetCode := code, assetType := joinSp rest }

/-- One iteration of the `for line in lines` loop of
`extract_tasks_and_assets_from_lines`. -/
def taskStep (s : TaskState) (line : String) : TaskState :=
  if pyStrip line = "" then s
  else if startsWithStr (pyLower line) "asset:" = true then assetUpdate s line
  else if is_header_line line = true then s
  else if is_metadata_line line = true then s
  else if looks_like_component_line line = true then
    let g := parse_grey_row line
    { s with loc1 := g.1, loc2 := g.2.1, setType := g.2.2.1, compPath := g.2.2.2 }
  else if looks_like_task_row line = true then
    let p := parse_task_row line
    let norm := normalize_task_code p.taskCode
    let row : TaskRow :=
      { taskCode := norm, trade := p.trade, taskAction := p.taskAction
        taskDescription := p.taskDescription, docRef := p.docRef, interval := p.interval
        location1 := s.loc1, location2 := s.loc2, setTypeCode := s.setType
        componentPath := s.compPath, assetTypeCode := s.setType, active := "Y" }
    let rows2 :=
      if s.rows.any (fun r => r.taskCode == norm) then mergeFirst s.rows norm row
      else s.rows ++ [row]
    { s with rows := rows2, lastTaskCode := norm }
  else if s.lastTaskCode ≠ "" ∧ is_metadata_line line = false then
    { s with rows := appendDescFirst s.rows s.lastTaskCode line }
  else s

/-- The empty initial state of the task pass. -/
def initTaskState : TaskState :=
  { rows := [], loc1 := "", loc2 := "", setType := "", compPath := ""
    lastTaskCode := "", assetType := "", assetCode := "" }

/-- Source `extract_tasks_and_assets_from_lines`: the final state carries
the ordered row list, the code lookup (first-match on `rows`), and the
asset fields. -/
def extract_tasks_and_assets_from_lines (lines : List String) : TaskState :=
  lines.foldl taskStep initTaskState

/-! ## Spare parts (source: PART_CANDIDATE_RE, looks_like_part_line,
parse_part_block, extract_spare_parts_from_lines) -/

/-- `PART_CANDIDATE_RE.fullmatch` (`\d{4,}[- ]?\d{3,4}`): either all digits
of length at least 7, or a digit run of length at least 4, one `-` or
space, and 3 or 4 digits. -/
def partFull (s : String) : Bool :=
  let l := s.toList
  let a := l.takeWhile Char.isDigit
  if a.length < 4 then false
  else
    match l.drop a.length with
    | [] => decide (7 ≤ a.length)
    | c :: t =>
      (c == '-' || c == ' ') && t.all Char.isDigit && decide (3 ≤ t.length ∧ t.length ≤ 4)

/-- Does `PART_CANDIDATE_RE` match starting exactly here: a digit run of
length at least 7, or a digit run of length at least 4 followed by `-` or
space and at least 3 more digits. -/
def partMatchAt (l : List Char) : Bool :=
  let a := l.takeWhile Char.isDigit
  decide (7 ≤ a.length) ||
    (decide (4 ≤ a.length) &&
      (match l.drop a.length with
       | c :: t => (c == '-' || c == ' ') && decide (3 ≤ (t.takeWhile Char.isDigit).length)
       | [] => false))

/-- `PART_CANDIDATE_RE.search`: a match at some position. -/
def partSearchL : List Char → Bool
  | [] => false
  | c :: rest => partMatchAt (c :: rest) || partSearchL rest

/-- Source `looks_like_part_line`. -/
def looks_like_part_line (line : String) : Bool := partSearchL line.toList

/-- Python `re.sub(r"[^\d\-]", "", tok)`. -/
def cleanKeepDigitsDash (tok : String) : String :=
  String.mk (tok.toList.filter (fun c => c.isDigit || c == '-'))

/-- Python `re.sub(r"\D", "", tok)`. -/
def digitsOnly (tok : String) : String :=
  String.mk (tok.toList.filter Char.isDigit)

/-- First token (with its index) whose cleaned form fullmatches the part
pattern. -/
def findPartIdxAux : List String → Nat → Option (Nat × String)
  | [], _ => none
  | t :: ts, i =>
    let clean := cleanKeepDigitsDash t
    if partFull clean then some (i, clean) else findPartIdxAux ts (i + 1)

/-- The split-part-number fallback: first adjacent token pair whose digit
contents have lengths at least 4 and at least 3. -/
def findSplitPart : List String → Nat → Option (Nat × String)
  | t1 :: t2 :: ts, i =>
    let c1 := digitsOnly t1
    let c2 := digitsOnly t2
    if decide (4 ≤ c1.length) && decide (3 ≤ c2.length) then some (i, c1 ++ "-" ++ c2)
    else findSplitPart (t2 :: ts) (i + 1)
  | _, _ => none

/-- First token (with its index, counted from `start`) matching the task
code pattern. -/
def findTaskIdxAux : List String → Nat → Option Nat
  | [], _ => none
  | t :: ts, i => if matchTaskCode t then some i else findTaskIdxAux ts (i + 1)

/-- Python `re.fullmatch(r"[A-Za-z]{1,4}", tok)`. -/
def isShortAlpha (tok : String) : Bool :=
  tok.toList.all Char.isAlpha && decide (1 ≤ tok.length ∧ tok.length ≤ 4)

/-- Python `re.fullmatch(r"[0-9]+(?:\.[0-9]+)?", tok)`. -/
def isNumericQty (tok : String) : Bool :=
  let l := tok.toList
  let a := l.takeWhile Char.isDigit
  if a.isEmpty then false
  else
    match l.drop a.length with
    | [] => true
    | '.' :: t => !t.isEmpty && t.all Char.isDigit
    | _ => false

/-- Result of `parse_part_block`. -/
structure PartRecord where
  taskCode : String
  taskAction : String
  partNo : String
  partDescription : String
  qtyRequired : String
  uom : String
  componentPath : String
deriving DecidableEq, Repr

/-- The continuation-line loop at the end of `parse_part_block`: absorb
following lines into the component path until a line that starts a new
part, a task row, a header or metadata; returns the final component path
and the number of lines consumed. -/
def partCont (cp : String) : List String → String × Nat
  | [] => (cp, 0)
  | nxt :: tl =>
    if looks_like_part_line nxt || looks_like_task_row nxt ||
        is_header_line nxt || is_metadata_line nxt then (cp, 0)
    else
      let cp2 := if pyStrip nxt ≠ "" then pyStrip (cp ++ " " ++ pyStrip nxt) else cp
      let r := partCont cp2 tl
      (r.1, r.2 + 1)

/-- Source `parse_part_block`, with `lines[idx]` passed as `line` and the
following lines as `rest`; the returned number is how many lines of `rest`
were consumed (Python's `next_index - idx - 1`). -/
def parse_part_block (line : String) (rest : List String) : Option PartRecord × Nat :=
  let tokens := pySplit line
  if tokens.isEmpty then (none, 0)
  else
    let found :=
      match findPartIdxAux tokens 0 with
      | some pr => some pr
      | none => findSplitPart tokens 0
    match found with
    | none => (none, 0)
    | some (part_idx, part_no) =>
      let taskIdx := findTaskIdxAux (tokens.drop (part_idx + 1)) (part_idx + 1)
      let task_code :=
        match taskIdx with
        | some j => normalize_task_code (((tokens.drop j).head?).getD "")
        | none => ""
      let task_action :=
        match taskIdx with
        | some j => if j + 1 < tokens.length then ((tokens.drop (j + 1)).head?).getD "" else ""
        | none => ""
      -- `tokens[part_idx + 1 : task_idx if task_idx else len(tokens)]`
      let descEnd :=
        match taskIdx with
        | some j => if j = 0 then tokens.length else j
        | none => tokens.length
      let desc_tokens := (tokens.drop (part_idx + 1)).take (descEnd - (part_idx + 1))
      -- `tokens[(task_idx + 2) if task_idx is not None else len(tokens):]`
      let comp_tokens :=
        match taskIdx with
        | some j => tokens.drop (j + 2)
        | none => tokens.drop tokens.length
      let uomPair :=
        match comp_tokens.getLast? with
        | some lastTok =>
          if isShortAlpha lastTok then (lastTok, comp_tokens.dropLast) else ("", comp_tokens)
        | none => ("", comp_tokens)
      let qtyPair :=
        match uomPair.2.getLast? with
        | some lastTok =>
          if isNumericQty lastTok then (lastTok, uomPair.2.dropLast) else ("", uomPair.2)
        | none => ("", uomPair.2)
      let cp0 := pyStrip (joinSp qtyPair.2)
      let cpk := partCont cp0 rest
      (some
        { taskCode := task_code, taskAction := task_action, partNo := part_no
          partDescription := pyStrip (joinSp desc_tokens)
          qtyRequired := qtyPair.1, uom := uomPair.1, componentPath := cpk.1 },
        cpk.2)

/-- One output spare-part record. -/
structure SpareRow where
  taskCode : String
  partNo : String
  partDescription : String
  muTl : String
  qtyRequired : String
  uom : String
  itemDependency : String
  location1 : String
  location2 : String
  assetType : String
  assetTypeCode : String
deriving DecidableEq, Repr

/-- The mutable scan state of the spare-part pass. -/
structure SpareState where
  rows : List SpareRow
  curTask : String
  loc1 : String
  loc2 : String
  setType : String
  compPath : String
  seen : List (String × String × String)
deriving DecidableEq, Repr

/-- Python `parsed.get("TaskCode") or current_task_code or ""`: the parsed
block's own task code, else the carried one, else empty. -/
def resolvedCode (p : PartRecord) (cur : String) : String :=
  if p.taskCode ≠ "" then p.taskCode else if cur ≠ "" then cur else ""

/-- The body of the spare-part branch once a block has been parsed:
resolve the task code (own code, else the carried one, else discard),
deduplicate on the (taskCode, partNo, partDescription) triple, resolve
location / set-type context, and append the record. -/
def handleParsedPart (lookup : List TaskRow) (s : SpareState) (p : PartRecord) :
    SpareState :=
  let task_code := resolvedCode p s.curTask
  if task_code = "" then s
  else
    let key : String × String × String := (task_code, p.partNo, p.partDescription)
    if key ∈ s.seen then s
    else
      let ctx := lookup.find? (fun t => t.taskCode == task_code)
      let loc1 := if s.loc1 ≠ "" then s.loc1 else (ctx.map (fun t => t.location1)).getD ""
      let loc2 := if s.loc2 ≠ "" then s.loc2 else (ctx.map (fun t => t.location2)).getD ""
      let st0 := if s.setType ≠ "" then s.setType else (ctx.map (fun t => t.setTypeCode)).getD ""
      let st :=
        if st0 = "" then ((parenCodes p.componentPath.toList).getLast?).getD "" else st0
      { s with
        seen := key :: s.seen
        rows := s.rows ++
          [{ taskCode := task_code, partNo := p.partNo, partDescription := p.partDescription
             muTl := "", qtyRequired := p.qtyRequired, uom := p.uom, itemDependency := ""
             location1 := loc1, location2 := loc2, assetType := "", assetTypeCode := st }] }

/-- The `while idx < len(lines)` loop of `extract_spare_parts_from_lines`,
with explicit fuel; every iteration consumes at least one line, so fuel
equal to the number of lines makes the zero-fuel case unreachable. -/
def spareLoopF (lookup : List TaskRow) : Nat → SpareState → List String → SpareState
  | 0, s, _ => s
  | _ + 1, s, [] => s
  | fuel + 1, s, line :: rest =>
    if pyStrip line = "" then spareLoopF lookup fuel s rest
    else if is_metadata_line line = true ∨ startsWithStr (pyLower line) "asset:" = true then
      spareLoopF lookup fuel s rest
    else if looks_like_part_line line = true then
      let pk := parse_part_block line rest
      let s2 :=
        match pk.1 with
        | some p => handleParsedPart lookup s p
        | none => s
      spareLoopF lookup fuel s2 (rest.drop pk.2)
    else if looks_like_component_line line = true ∧ looks_like_part_line line = false then
      let g := parse_grey_row line
      spareLoopF lookup fuel
        { s with loc1 := g.1, loc2 := g.2.1, setType := g.2.2.1, compPath := g.2.2.2 } rest
    else if looks_like_task_row line = true then
      let tc := (pySplit (strip_status_marker line)).headD ""
      spareLoopF lookup fuel { s with curTask := normalize_task_code tc } rest
    else spareLoopF lookup fuel s rest

/-- The empty initial state of the spare-part pass. -/
def initSpareState : SpareState :=
  { rows := [], curTask := "", loc1 := "", loc2 := "", setType := "", compPath := ""
    seen := [] }

/-- Source `extract_spare_parts_from_lines`. -/
def extract_spare_parts_from_lines (lines : List String) (lookup : List TaskRow) :
    List SpareRow :=
  (spareLoopF lookup lines.length initSpareState lines).rows

/-! ## Derived definitions used by the theorems -/

/-- The dedup invariant of the spare-part pass: emitted triples are
duplicate-free and all recorded in `seen`. -/
def spareInv (s : SpareState) : Prop :=
  ((s.rows.map (fun r => (r.taskCode, r.partNo, r.partDescription))).Nodup)
  ∧ ∀ r ∈ s.rows, (r.taskCode, r.partNo, r.partDescription) ∈ s.seen

/-- The task-code invariant of the spare-part pass: no emitted record has
an empty task code. -/
def spareNonempty (s : SpareState) : Prop :=
  ∀ r ∈ s.rows, r.taskCode ≠ ""

/-- The C6 example line reused as a concrete C8 witness input. -/
def c8line : String := "1550595-9960 Seal Kit 9465150 Check [648575-0400] 2 EA"

/-- The record the spare pass emits for `c8line` with an empty lookup. -/
def c8row : SpareRow :=
  { taskCode := "9465150", partNo := "1550595-9960", partDescription := "Seal Kit"
    muTl := "", qtyRequired := "2", uom := "EA", itemDependency := ""
    location1 := "", location2 := "", assetType := "", assetTypeCode := "" }

/-- A concrete record for the C10 witness state. -/
def c10row : TaskRow :=
  { taskCode := "1234567", trade := "ENGR", taskAction := "Check", taskDescription := "base"
    docRef := "", interval := "", location1 := "", location2 := "", setTypeCode := ""
    componentPath := "", assetTypeCode := "", active := "Y" }

/-- A concrete state for the C10 witness: one parsed task row already seen. -/
def c10state : TaskState :=
  { rows := [c10row], loc1 := "", loc2 := "", setType := "", compPath := ""
    lastTaskCode := "1234567", assetType := "", assetCode := "" }

/-! ## Helper lemmas -/

lemma assetUpdate_rows (s : TaskState) (line : String) :
    (assetUpdate s line).rows = s.rows := by
  unfold assetUpdate
  split <;> rfl

lemma mergeFirst_map_taskCode (rows : List TaskRow) (code : String) (newRow : TaskRow)
    (h : newRow.taskCode = code) :
    (mergeFirst rows code newRow).map (fun r => r.taskCode)
      = rows.map (fun r => r.taskCode) := by
  induction rows with
  | nil => rfl
  | cons r rest ih =>
    by_cases hr : r.taskCode = code
    · simp only [mergeFirst, if_pos hr, List.map_cons]
      have hcode : (mergeRow r newRow).taskCode = r.taskCode := by
        simp only [mergeRow, fillIfEmpty, hr, h]
        split <;> simp [hr]
      rw [hcode]
    · simp only [mergeFirst, if_neg hr, List.map_cons, ih]

lemma appendDescFirst_map_taskCode (rows : List TaskRow) (code line : String) :
    (appendDescFirst rows code line).map (fun r => r.taskCode)
      = rows.map (fun r => r.taskCode) := by
  induction rows with
  | nil => rfl
  | cons r rest ih =>
    by_cases hr : r.taskCode = code
    · simp only [appendDescFirst, if_pos hr, List.map_cons]
    · simp only [appendDescFirst, if_neg hr, List.map_cons, ih]

lemma taskStep_codes (s : TaskState) (line : String) :
    ((taskStep s line).rows.map (fun r => r.taskCode) = s.rows.map (fun r => r.taskCode))
    ∨ ∃ c, (taskStep s line).rows.map (fun r => r.taskCode)
            = s.rows.map (fun r => r.taskCode) ++ [c]
        ∧ c ∉ s.rows.map (fun r => r.taskCode) := by
  unfold taskStep
  split_ifs with h1 h2 h3 h4 h5 h6 h7
  · exact Or.inl rfl
  · exact Or.inl (by rw [assetUpdate_rows])
  · exact Or.inl rfl
  · exact Or.inl rfl
  · exact Or.inl rfl
  · by_cases hany :
      s.rows.any (fun r =>
        r.taskCode == normalize_task_code (parse_task_row line).taskCode)
    · left
      simp only [hany, if_true]
      exact mergeFirst_map_taskCode _ _ _ rfl
    · right
      refine ⟨normalize_task_code (parse_task_row line).taskCode, ?_, ?_⟩
      · simp only [hany, if_false, List.map_append, List.map_cons, List.map_nil,
          Bool.false_eq_true]
      · intro hmem
        obtain ⟨r, hr, hrc⟩ := List.mem_map.mp hmem
        have : s.rows.any (fun r =>
            r.taskCode == normalize_task_code (parse_task_row line).taskCode) = true := by
          rw [List.any_eq_true]
          exact ⟨r, hr, by simp [hrc]⟩
        exact hany this
  · exact Or.inl (appendDescFirst_map_taskCode _ _ _)
  · exact Or.inl rfl

lemma foldl_taskStep_nodup (lines : List String) :
    ∀ s : TaskState, ((s.rows.map (fun r => r.taskCode)).Nodup) →
      (((List.foldl taskStep s lines).rows.map (fun r => r.taskCode)).Nodup) := by
  induction lines with
  | nil => intro s h; exact h
  | cons line rest ih =>
    intro s h
    simp only [List.foldl_cons]
    apply ih
    rcases taskStep_codes s line with hc | ⟨c, hc, hnot⟩
    · rw [hc]; exact h
    · rw [hc]
      rw [List.nodup_append]
      refine ⟨h, List.nodup_singleton c, ?_⟩
      intro a ha hb
      rw [List.mem_singleton] at hb
      subst hb
      exact hnot ha

lemma map_id_of_no_code (rows : List TaskRow) (code line : String)
    (h : ∀ r ∈ rows, r.taskCode ≠ code) :
    rows.map (fun r =>
        if r.taskCode = code then
          { r with taskDescription := pyStrip (r.taskDescription ++ " " ++ pyStrip line) }
        else r)
      = rows := by
  induction rows with
  | nil => rfl
  | cons r rest ih =>
    have hr := h r (List.mem_cons_self r rest)
    simp only [List.map_cons, if_neg hr]
    rw [ih (fun x hx => h x (List.mem_cons_of_mem r hx))]

lemma appendDescFirst_eq_map (rows : List TaskRow) (code line : String)
    (hnd : (rows.map (fun r => r.taskCode)).Nodup) :
    appendDescFirst rows code line
      = rows.map (fun r =>
          if r.taskCode = code then
            { r with taskDescription := pyStrip (r.taskDescription ++ " " ++ pyStrip line) }
          else r) := by
  induction rows with
  | nil => rfl
  | cons r rest ih =>
    simp only [List.map_cons, List.nodup_cons] at hnd
    obtain ⟨hnotin, hrest⟩ := hnd
    by_cases hr : r.taskCode = code
    · simp only [appendDescFirst, if_pos hr, List.map_cons]
      congr 1
      rw [map_id_of_no_code]
      intro x hx hxc
      have hmem : x.taskCode ∈ rest.map (fun r => r.taskCode) :=
        List.mem_map_of_mem (fun r => r.taskCode) hx
      rw [hxc, ← hr] at hmem
      exact hnotin hmem
    · simp only [appendDescFirst, if_neg hr, List.map_cons, ih hrest]

lemma handleParsedPart_inv (lookup : List TaskRow) (s : SpareState) (p : PartRecord)
    (h : spareInv s) : spareInv (handleParsedPart lookup s p) := by
  obtain ⟨h1, h2⟩ := h
  unfold handleParsedPart
  by_cases ht : resolvedCode p s.curTask = ""
  · simpa [ht] using ⟨h1, h2⟩
  · simp only [if_neg ht]
    by_cases hk :
        (resolvedCode p s.curTask, p.partNo, p.partDescription) ∈ s.seen
    · simpa [hk] using ⟨h1, h2⟩
    · simp only [if_neg hk]
      constructor
      · rw [List.map_append, List.nodup_append]
        refine ⟨h1, by simp, ?_⟩
        intro a ha hb
        simp only [List.map_cons, List.map_nil, List.mem_singleton] at hb
        subst hb
        obtain ⟨r, hr, hrt⟩ := List.mem_map.mp ha
        exact hk (hrt ▸ h2 r hr)
      · intro r hr
        rcases List.mem_append.mp hr with hr | hr
        · exact List.mem_cons_of_mem _ (h2 r hr)
        · rw [List.mem_singleton] at hr
          subst hr
          exact List.mem_cons_self _ _

lemma spareLoopF_inv (lookup : List TaskRow) :
    ∀ (fuel : Nat) (lines : List String) (s : SpareState),
      spareInv s → spareInv (spareLoopF lookup fuel s lines) := by
  intro fuel
  induction fuel with
  | zero => intro lines s h; exact h
  | succ n ih =>
    intro lines s h
    cases lines with
    | nil => exact h
    | cons line rest =>
      simp only [spareLoopF]
      split_ifs with h1 h2 h3 h4 h5
      · exact ih rest s h
      · exact ih rest s h
      · cases hp : (parse_part_block line rest).1 with
        | none => exact ih _ s h
        | some p => exact ih _ _ (handleParsedPart_inv lookup s p h)
      · exact ih rest _ h
      · exact ih rest _ h
      · exact ih rest s h

lemma handleParsedPart_nonempty (lookup : List TaskRow) (s : SpareState) (p : PartRecord)
    (h : spareNonempty s) : spareNonempty (handleParsedPart lookup s p) := by
  unfold handleParsedPart
  by_cases ht : resolvedCode p s.curTask = ""
  · simpa [ht] using h
  · simp only [if_neg ht]
    by_cases hk :
        (resolvedCode p s.curTask, p.partNo, p.partDescription) ∈ s.seen
    · simpa [hk] using h
    · simp only [if_neg hk]
      intro r hr
      rcases List.mem_append.mp hr with hr | hr
      · exact h r hr
      · rw [List.mem_singleton] at hr
        subst hr
        exact ht

lemma spareLoopF_nonempty (lookup : List TaskRow) :
    ∀ (fuel : Nat) (lines : List String) (s : SpareState),
      spareNonempty s → spareNonempty (spareLoopF lookup fuel s lines) := by
  intro fuel
  induction fuel with
  | zero => intro lines s h; exact h
  | succ n ih =>
    intro lines s h
    cases lines with
    | nil => exact h
    | cons line rest =>
      simp only [spareLoopF]
      split_ifs with h1 h2 h3 h4 h5
      · exact ih rest s h
      · exact ih rest s h
      · cases hp : (parse_part_block line rest).1 with
        | none => exact ih _ s h
        | some p => exact ih _ _ (handleParsedPart_nonempty lookup s p h)
      · exact ih rest _ h
      · exact ih rest _ h
      · exact ih rest s h

lemma findFirstIdx_none_all (p : String → Bool) :
    ∀ l : List String, findFirstIdx p l = none → ∀ x ∈ l, p x = false := by
  intro l
  induction l with
  | nil => intro _ x hx; simp at hx
  | cons a l ih =>
    intro h x hx
    unfold findFirstIdx at h
    by_cases ha : p a = true
    · rw [if_pos ha] at h
      simp at h
    · rw [if_neg ha] at h
      cases hfx : findFirstIdx p l with
      | some j => rw [hfx] at h; simp at h
      | none =>
        rcases List.mem_cons.mp hx with rfl | hx
        · simpa using ha
        · exact ih hfx x hx

lemma findFirstIdx_some_spec (p : String → Bool) :
    ∀ (l : List String) (i : Nat), findFirstIdx p l = some i →
      i < l.length ∧ (∃ x, (l.drop i).head? = some x ∧ p x = true) ∧
        ∀ y ∈ l.take i, p y = false := by
  intro l
  induction l with
  | nil => intro i h; simp [findFirstIdx] at h
  | cons a l ih =>
    intro i h
    unfold findFirstIdx at h
    by_cases ha : p a = true
    · rw [if_pos ha] at h
      have h0 : i = 0 := by simpa using h.symm
      subst h0
      exact ⟨by simp, ⟨a, by simp, ha⟩, by simp⟩
    · rw [if_neg ha] at h
      cases hfx : findFirstIdx p l with
      | none => rw [hfx] at h; simp at h
      | some j =>
        rw [hfx] at h
        have hij : j + 1 = i := by simpa using h
        subst hij
        obtain ⟨hlen, ⟨x, hx, hpx⟩, hall⟩ := ih j hfx
        refine ⟨by simpa using Nat.succ_lt_succ hlen, ⟨x, ?_, hpx⟩, ?_⟩
        · simpa [List.drop_succ_cons] using hx
        · intro y hy
          rw [List.take_succ_cons] at hy
          rcases List.mem_cons.mp hy with rfl | hy
          · simpa using ha
          · exact hall y hy

lemma sdrd_unfold (tokens : List String) (hE : tokens.isEmpty = false)
    (h2 : ¬(2 ≤ tokens.length ∧
        (tokens.drop (tokens.length - 2)).map pyLower = ["no", "reference"])) :
    split_doc_ref_and_description tokens
      = ((fun ds => (pyStrip (joinSp (tokens.take ds)), pyStrip (joinSp (tokens.drop ds))))
          (match findFirstIdx docCond
              (if 5 < tokens.length then tokens.drop (tokens.length - 5) else tokens) with
            | some i =>
              (tokens.length -
                (if 5 < tokens.length then
                    tokens.drop (tokens.length - 5)
                  else tokens).length) + i
            | none => tokens.length - 1)) := by
  unfold split_doc_ref_and_description
  rw [if_neg (by simp [hE]), if_neg h2]

lemma lookback_eq_drop (tokens : List String) :
    (if 5 < tokens.length then tokens.drop (tokens.length - 5) else tokens)
      = tokens.drop (tokens.length - 5) := by
  split_ifs with h5
  · rfl
  · rw [Nat.sub_eq_zero_of_le (by omega), List.drop_zero]

/-! ## Claim theorems -/

/-- C1: the task pass emits at most one record per normalized task code
(the output code list has no duplicates), and a single step either leaves
the code list unchanged (the merge-in-place case, preserving first-seen
order) or appends one record whose code was not yet present. -/
theorem C1_unique_task_codes :
    (∀ lines : List String,
      ((extract_tasks_and_assets_from_lines lines).rows.map (fun r => r.taskCode)).Nodup)
    ∧ ∀ (s : TaskState) (line : String),
        ((taskStep s line).rows.map (fun r => r.taskCode) = s.rows.map (fun r => r.taskCode))
        ∨ ∃ c, (taskStep s line).rows.map (fun r => r.taskCode)
                = s.rows.map (fun r => r.taskCode) ++ [c]
            ∧ c ∉ s.rows.map (fun r => r.taskCode) :=
  ⟨fun lines => foldl_taskStep_nodup lines initTaskState (by simp [initTaskState]),
   taskStep_codes⟩

/-- C2 fails on the code: on the first example line the parser does not
return description "Check warning labels" with empty document reference
(the unqualified trailing token "labels" still becomes the doc ref). -/
theorem C2_counterexample :
    ¬((parse_task_row "9465150 ENGR Check Check warning labels 1000 Hours").taskDescription
        = "Check warning labels"
      ∧ (parse_task_row "9465150 ENGR Check Check warning labels 1000 Hours").docRef = "") := by
  decide

/-- C2 amended: the first example line parses to description "Check
warning", doc ref "labels", interval "1000 Hours"; the second parses to
description "Check", doc ref "labels", interval "No reference" (the
fallback interval rule consumes the trailing two tokens). -/
theorem C2_amended_examples :
    parse_task_row "9465150 ENGR Check Check warning labels 1000 Hours"
      = ⟨"9465150", "ENGR", "Check", "Check warning", "labels", "1000 Hours"⟩
    ∧ parse_task_row "9465160 TECH Check Check labels No reference"
      = ⟨"9465160", "TECH", "Check", "Check", "labels", "No reference"⟩ := by decide

/-- C3 fails on the code: a remainder ending in neither a "No Interval"
phrase nor an integer-unit pair still gets a non-empty interval ("beta
gamma" here, the fallback last-two-tokens rule). -/
theorem C3_counterexample :
    (parse_task_row "1234567 ENGR Check alpha beta gamma").interval = "beta gamma"
    ∧ (parse_task_row "1234567 ENGR Check alpha beta gamma").interval ≠ ""
    ∧ isIntervalUnit (pyLower "gamma") = false
    ∧ pyLower "gamma" ≠ "interval" := by decide

/-- C4 fails on the code: after interval removal, a token containing `/`
does qualify as a doc-ref starter, and the doc ref may be a multi-token
suffix ("AB/12 foo": neither empty, the sentinel, nor the single trailing
token). -/
theorem C4_counterexample :
    (parse_task_row "1234567 ENGR Check do AB/12 foo 10 Hours").docRef = "AB/12 foo"
    ∧ containsChar "AB/12" '/' = true
    ∧ (parse_task_row "1234567 ENGR Check do AB/12 foo 10 Hours").docRef ≠ ""
    ∧ (parse_task_row "1234567 ENGR Check do AB/12 foo 10 Hours").docRef ≠ "No reference"
    ∧ (parse_task_row "1234567 ENGR Check do AB/12 foo 10 Hours").docRef ≠ "foo" := by decide

/-- C3 amended: when the remainder ends in none of the "No Interval"
phrase, an integer-unit pair, or the "Recap" sentinel, the interval is not
empty: with at least two tokens the last two (space-joined) become the
interval and only the tokens before them are passed on; with exactly one
token, that token becomes the interval; the interval is empty only for an
empty remainder. -/
theorem C3_amended_fallback :
    ∀ tokens : List String,
      ¬(2 ≤ tokens.length ∧
          (tokens.drop (tokens.length - 2)).map pyLower = ["no", "interval"]) →
      ¬(isIntervalUnit (pyLower ((tokens.getLast?).getD "")) = true ∧ 2 ≤ tokens.length ∧
          allDigits (((tokens.drop (tokens.length - 2)).head?).getD "") = true) →
      pyLower ((tokens.getLast?).getD "") ≠ "recap" →
      (2 ≤ tokens.length →
         split_interval tokens
           = (tokens.take (tokens.length - 2), joinSp (tokens.drop (tokens.length - 2))))
      ∧ (tokens.length = 1 → split_interval tokens = ([], (tokens.getLast?).getD ""))
      ∧ (tokens = [] → split_interval tokens = ([], "")) := by
  intro tokens h1 h2 h3
  refine ⟨?_, ?_, ?_⟩
  · intro hn
    have hE : tokens.isEmpty = false := by
      cases tokens with
      | nil => simp at hn
      | cons a l => rfl
    unfold split_interval
    rw [if_neg (by simp [hE]), if_neg h1, if_neg h2, if_neg h3, if_pos hn]
  · intro hn
    have hE : tokens.isEmpty = false := by
      cases tokens with
      | nil => simp at hn
      | cons a l => rfl
    unfold split_interval
    rw [if_neg (by simp [hE]), if_neg h1, if_neg h2, if_neg h3, if_neg (by omega)]
  · intro h
    subst h
    rfl

/-- C3 amended witness: the fallback applied to a concrete three-token
remainder. -/
theorem C3_witness :
    split_interval ["alpha", "beta", "gamma"] = (["alpha"], "beta gamma") :=
  (C3_amended_fallback ["alpha", "beta", "gamma"] (by decide) (by decide) (by decide)).1
    (by decide)

/-- C4 amended: when the remainder is nonempty and does not end in the "No
reference" phrase, the doc ref is the token suffix starting at the first
token of the last-five-token window that contains a digit, one of
`:;/.-`, or is a short all-uppercase word — defaulting to the single
trailing token when no window token qualifies; it is never empty. -/
theorem C4_amended_docref :
    ∀ tokens : List String, tokens ≠ [] →
      ¬(2 ≤ tokens.length ∧
          (tokens.drop (tokens.length - 2)).map pyLower = ["no", "reference"]) →
      ∃ k, tokens.length ≤ k + 5 ∧ k + 1 ≤ tokens.length ∧
        split_doc_ref_and_description tokens
          = (pyStrip (joinSp (tokens.take k)), pyStrip (joinSp (tokens.drop k))) ∧
        (∀ y ∈ (tokens.take k).drop (tokens.length - 5), docCond y = false) ∧
        (k + 1 = tokens.length ∨ ∃ x, (tokens.drop k).head? = some x ∧ docCond x = true) := by
  intro tokens hne h2
  have hE : tokens.isEmpty = false := by
    cases tokens with
    | nil => exact absurd rfl hne
    | cons a l => rfl
  have hpos : 1 ≤ tokens.length := by
    cases tokens with
    | nil => exact absurd rfl hne
    | cons a l => simp
  have hlen : (tokens.drop (tokens.length - 5)).length
      = tokens.length - (tokens.length - 5) := List.length_drop _ _
  have hval := sdrd_unfold tokens hE h2
  rw [lookback_eq_drop tokens] at hval
  cases hf : findFirstIdx docCond (tokens.drop (tokens.length - 5)) with
  | none =>
    rw [hf] at hval
    refine ⟨tokens.length - 1, by omega, by omega, hval, ?_, Or.inl (by omega)⟩
    intro y hy
    apply findFirstIdx_none_all docCond _ hf
    rw [List.drop_take] at hy
    exact List.mem_of_mem_take hy
  | some i =>
    rw [hf] at hval
    obtain ⟨hilen, ⟨x, hx, hpx⟩, hall⟩ := findFirstIdx_some_spec docCond _ i hf
    rw [hlen] at hilen
    have hstart : tokens.length - (tokens.drop (tokens.length - 5)).length
        = tokens.length - 5 := by
      rw [hlen]; omega
    rw [hstart] at hval
    refine ⟨(tokens.length - 5) + i, by omega, by omega, hval, ?_, Or.inr ⟨x, ?_, hpx⟩⟩
    · intro y hy
      apply hall
      rw [List.drop_take] at hy
      have harith : tokens.length - 5 + i - (tokens.length - 5) = i := by omega
      rw [harith] at hy
      exact hy
    · rw [List.drop_drop] at hx
      exact hx

/-- C4 amended witness: the doc-ref split applied to a concrete remainder
whose qualifying token contains a slash. -/
theorem C4_witness :
    ∃ k, (["do", "AB/12", "foo"] : List String).length ≤ k + 5
      ∧ k + 1 ≤ (["do", "AB/12", "foo"] : List String).length
      ∧ split_doc_ref_and_description ["do", "AB/12", "foo"]
          = (pyStrip (joinSp ((["do", "AB/12", "foo"] : List String).take k)),
             pyStrip (joinSp ((["do", "AB/12", "foo"] : List String).drop k)))
      ∧ (∀ y ∈ ((["do", "AB/12", "foo"] : List String).take k).drop
            ((["do", "AB/12", "foo"] : List String).length - 5), docCond y = false)
      ∧ (k + 1 = (["do", "AB/12", "foo"] : List String).length
         ∨ ∃ x, ((["do", "AB/12", "foo"] : List String).drop k).head? = some x
              ∧ docCond x = true) :=
  C4_amended_docref ["do", "AB/12", "foo"] (by decide) (by decide)

/-- C5: the context row "1 Pre-Maintenance \ Checks (9000171371)" followed
by a task-start row yields a task record with Location1 "1
Pre-Maintenance", Location2 "Checks (9000171371)" and set-type code
"9000171371". -/
theorem C5_context_carryover :
    (extract_tasks_and_assets_from_lines
      ["1 Pre-Maintenance \\ Checks (9000171371)",
       "9465150 ENGR Check Check warning labels 1000 Hours"]).rows.map
        (fun r => (r.location1, r.location2, r.setTypeCode))
    = [("1 Pre-Maintenance", "Checks (9000171371)", "9000171371")] := by decide

/-- C6: the spare-part block "1550595-9960 Seal Kit 9465150 Check
[648575-0400] 2 EA" (with no continuation lines) parses to part number
"1550595-9960", description "Seal Kit", task code "9465150", component
path "[648575-0400]", quantity "2", unit "EA". -/
theorem C6_part_block :
    parse_part_block "1550595-9960 Seal Kit 9465150 Check [648575-0400] 2 EA" []
      = (some { taskCode := "9465150", taskAction := "Check", partNo := "1550595-9960",
                partDescription := "Seal Kit", qtyRequired := "2", uom := "EA",
                componentPath := "[648575-0400]" }, 0) := by decide

/-- C9 fails on the code: a line containing both "task code" and "task
action" (but not "trade" / "task description") is not classified as a
header row. -/
theorem C9_counterexample :
    containsSub (joinSp (pySplit (pyLower "task code task action"))) "task code" = true
    ∧ containsSub (joinSp (pySplit (pyLower "task code task action"))) "task action" = true
    ∧ is_header_line "task code task action" = false := by decide

/-- C9 amended: a header row must contain all four phrases "task code",
"trade", "task action", "task description" in the lower-cased
space-normalized text; the two claimed phrases alone do not suffice and
concatenated (no-space) forms do not match, while a genuine header line
does. -/
theorem C9_amended_header :
    (∀ line : String, is_header_line line = true →
      containsSub (joinSp (pySplit (pyLower line))) "task code" = true
      ∧ containsSub (joinSp (pySplit (pyLower line))) "trade" = true
      ∧ containsSub (joinSp (pySplit (pyLower line))) "task action" = true
      ∧ containsSub (joinSp (pySplit (pyLower line))) "task description" = true)
    ∧ is_header_line "taskcode trade taskaction taskdescription" = false
    ∧ is_header_line "Task Code Trade Task Action Task Description Doc Ref" = true := by
  refine ⟨?_, by decide, by decide⟩
  intro line h
  unfold is_header_line at h
  simp only [Bool.and_eq_true] at h
  exact ⟨h.1.1.1, h.1.1.2, h.1.2, h.2⟩

/-- C9 amended witness: the general direction applied to a concrete header
line. -/
theorem C9_witness :
    containsSub (joinSp (pySplit (pyLower "Task Code Trade Task Action Task Description")))
        "task code" = true
    ∧ containsSub (joinSp (pySplit (pyLower "Task Code Trade Task Action Task Description")))
        "trade" = true
    ∧ containsSub (joinSp (pySplit (pyLower "Task Code Trade Task Action Task Description")))
        "task action" = true
    ∧ containsSub (joinSp (pySplit (pyLower "Task Code Trade Task Action Task Description")))
        "task description" = true :=
  C9_amended_header.1 "Task Code Trade Task Action Task Description" (by decide)

/-- C7: within one spare-part pass no two emitted records share the
(taskCode, partNo, partDescription) triple. -/
theorem C7_spare_dedup :
    ∀ (lines : List String) (lookup : List TaskRow),
      ((extract_spare_parts_from_lines lines lookup).map
        (fun r => (r.taskCode, r.partNo, r.partDescription))).Nodup := by
  intro lines lookup
  exact (spareLoopF_inv lookup lines.length lines initSpareState
    ⟨by simp [initSpareState], by intro r hr; simp [initSpareState] at hr⟩).1

/-- C8: every emitted spare record has a non-empty task code; a parsed
block with empty code adopts the pass's carried code; when both are empty
the block is discarded with the state unchanged (the pass continues). -/
theorem C8_taskcode_resolution :
    (∀ (lines : List String) (lookup : List TaskRow),
       ∀ r ∈ extract_spare_parts_from_lines lines lookup, r.taskCode ≠ "")
    ∧ (∀ (lookup : List TaskRow) (s : SpareState) (p : PartRecord),
         p.taskCode = "" → s.curTask ≠ "" →
         ∀ r ∈ (handleParsedPart lookup s p).rows, r ∈ s.rows ∨ r.taskCode = s.curTask)
    ∧ (∀ (lookup : List TaskRow) (s : SpareState) (p : PartRecord),
         p.taskCode = "" → s.curTask = "" → handleParsedPart lookup s p = s) := by
  refine ⟨?_, ?_, ?_⟩
  · intro lines lookup r hr
    exact spareLoopF_nonempty lookup lines.length lines initSpareState
      (by intro x hx; simp [initSpareState] at hx) r hr
  · intro lookup s p hp hc r hr
    have hres : resolvedCode p s.curTask = s.curTask := by
      simp [resolvedCode, hp, hc]
    unfold handleParsedPart at hr
    rw [hres, if_neg hc] at hr
    by_cases hk : (s.curTask, p.partNo, p.partDescription) ∈ s.seen
    · rw [if_pos hk] at hr
      exact Or.inl hr
    · rw [if_neg hk] at hr
      rcases List.mem_append.mp hr with hr | hr
      · exact Or.inl hr
      · right
        rw [List.mem_singleton] at hr
        subst hr
        rfl
  · intro lookup s p hp hc
    simp [handleParsedPart, resolvedCode, hp, hc]

/-- C8 witness: the non-emptiness conjunct applied to a concrete pass
output. -/
theorem C8_witness : c8row.taskCode ≠ "" :=
  C8_taskcode_resolution.1 [c8line] [] c8row (by decide)

/-- C10: a non-blank line that is neither an asset row, a header, metadata,
a context row, nor a task-start row is appended (space-joined) to the
TaskDescription of the record whose code was most recently seen, all other
records and state fields unchanged; with no task row seen yet the line is
ignored. -/
theorem C10_continuation_lines :
    ∀ (s : TaskState) (line : String),
      ((s.rows.map (fun r => r.taskCode)).Nodup) →
      pyStrip line ≠ "" →
      startsWithStr (pyLower line) "asset:" = false →
      is_header_line line = false →
      is_metadata_line line = false →
      looks_like_component_line line = false →
      looks_like_task_row line = false →
      (s.lastTaskCode = "" → taskStep s line = s)
      ∧ (s.lastTaskCode ≠ "" →
          (taskStep s line).rows
            = s.rows.map (fun r =>
                if r.taskCode = s.lastTaskCode then
                  { r with
                    taskDescription := pyStrip (r.taskDescription ++ " " ++ pyStrip line) }
                else r)
          ∧ (taskStep s line).lastTaskCode = s.lastTaskCode
          ∧ (taskStep s line).loc1 = s.loc1
          ∧ (taskStep s line).loc2 = s.loc2
          ∧ (taskStep s line).setType = s.setType
          ∧ (taskStep s line).compPath = s.compPath
          ∧ (taskStep s line).assetCode = s.assetCode
          ∧ (taskStep s line).assetType = s.assetType) := by
  intro s line hnd h1 h2 h3 h4 h5 h6
  constructor
  · intro h0
    simp [taskStep, h1, h2, h3, h4, h5, h6, h0]
  · intro hne
    simp only [taskStep, if_neg h1, h2, h3, h4, h5, h6, Bool.false_eq_true, if_false]
    rw [if_pos (show s.lastTaskCode ≠ "" ∧ True from ⟨hne, trivial⟩)]
    exact ⟨appendDescFirst_eq_map s.rows s.lastTaskCode line hnd, rfl, rfl, rfl, rfl,
      rfl, rfl, rfl⟩

/-- C10 witness: the theorem applied to the concrete state and the
continuation line "extra note". -/
theorem C10_witness :
    (taskStep c10state "extra note").rows
      = c10state.rows.map (fun r =>
          if r.taskCode = c10state.lastTaskCode then
            { r with
              taskDescription := pyStrip (r.taskDescription ++ " " ++ pyStrip "extra note") }
          else r) :=
  ((C10_continuation_lines c10state "extra note" (by decide) (by decide) (by decide)
      (by decide) (by decide) (by decide) (by decide)).2 (by decide)).1

end PdfExtract

